import Mathlib

/-!
Verification of the test-orchestration core of the e2e-test-agent repository
(source file src/TestAgent.ts), shallowly embedded in Lean 4.

Modelling conventions:
- JavaScript exceptions are made explicit: every fallible external call
  (fs.readdir, fs.readFile, agent.run) is a value of type Except JsError,
  supplied through a TestEnv record.  A thrown value is either an Error
  instance carrying a message, or an arbitrary non-Error value carrying its
  String(...) rendering; this mirrors the catch clause
  error instanceof Error ? error.message : String(error).
- The clock (new Date().toISOString() inside buildTestPrompt) is lifted to an
  explicit String argument; runAllTests receives the timestamp of the i-th
  test as nowAt i.
- console.log/console.error calls are elided from the orchestrator (they do
  not affect the returned data); printSummary, whose whole purpose is its
  console output, is modelled as the list of strings it logs, in order.
- Strings are Lean strings (lists of unicode scalar values).  The JavaScript
  String.prototype.trim is modelled by jsTrim, dropping the WhiteSpace and
  LineTerminator code points from both ends.  Array.prototype.sort with the
  default comparator is modelled as a sorted permutation (insertionSort) with
  respect to lexicographic string order; on directory listings (which hold no
  duplicate names beyond literal equality) any sorted permutation is unique.
- path.join is modelled as POSIX joining without normalisation, and
  path.basename as the last path component after stripping trailing slashes.
-/

/-- A thrown JavaScript value, as observed by the catch clause in
runSingleTest: either an Error instance (with its message) or any other
value (with its String(...) rendering). -/
inductive JsError where
  | error (message : String)
  | nonError (asString : String)
deriving DecidableEq

/-- The message string that the catch clause of runSingleTest derives from a
thrown value: error instanceof Error ? error.message : String(error). -/
def JsError.toMessage : JsError → String
  | .error m => m
  | .nonError s => s

/-- The interface TestResult of src/TestAgent.ts.  The field result has
TypeScript type any and is null on failure, modelled as Option α; the
optional field error is modelled as Option String. -/
structure TestResult (α : Type) where
  testFile : String
  testNumber : Nat
  prompt : String
  result : Option α
  success : Bool
  error : Option String
deriving DecidableEq

/-- The environment a TestAgent instance runs against: its configured tests
directory plus the three fallible external effects it performs, made explicit
as data.  readdir models fs.readdir(testsDir); readFile models
fs.readFile(path, utf-8); agentRun models this.agent.run(prompt), the Agent
Execution Gateway.  α is the (opaque) type of a successful gateway result. -/
structure TestEnv (α : Type) where
  testsDir : String
  readdir : Except JsError (List String)
  readFile : String → Except JsError String
  agentRun : String → Except JsError α

deriving instance DecidableEq for Except

/-- Whitespace as String.prototype.trim treats it: the WhiteSpace and
LineTerminator code points of the ECMAScript specification. -/
def isJsWs (c : Char) : Bool :=
  let n := c.toNat
  n == 0x9 || n == 0xa || n == 0xb || n == 0xc || n == 0xd || n == 0x20
  || n == 0xa0 || n == 0x1680 || (Nat.ble 0x2000 n && Nat.ble n 0x200a)
  || n == 0x2028 || n == 0x2029 || n == 0x202f || n == 0x205f || n == 0x3000
  || n == 0xfeff

/-- Right trim at the character-list level: drop trailing whitespace. -/
def rtrimL (l : List Char) : List Char :=
  (l.reverse.dropWhile isJsWs).reverse

/-- The JavaScript String.prototype.trim: drop leading and trailing
whitespace. -/
def jsTrim (s : String) : String :=
  String.mk (rtrimL (s.data.dropWhile isJsWs))

/-- Right-only trim on strings (used to describe the tail of the prompt). -/
def jsTrimRight (s : String) : String :=
  String.mk (rtrimL s.data)

/-- Boolean prefix test on character lists. -/
def isPrefList : List Char → List Char → Bool
  | [], _ => true
  | _ :: _, [] => false
  | a :: as, b :: bs => a == b && isPrefList as bs

/-- Boolean test that needle occurs contiguously inside hay. -/
def occursIn (needle : List Char) (hay : List Char) : Bool :=
  match hay with
  | [] => needle.isEmpty
  | _ :: bs => isPrefList needle hay || occursIn needle bs

/-- Substring test: containsStr hay needle is true when needle occurs
verbatim and contiguously inside hay. -/
def containsStr (hay needle : String) : Bool :=
  occursIn needle.data hay.data

/-- True when the final character of s is not whitespace (vacuously true for
the empty string). -/
def endsNonWs (s : String) : Bool :=
  match s.data.reverse with
  | [] => true
  | c :: _ => !isJsWs c

/-- True when s neither starts nor ends with a whitespace character. -/
def noEdgeWs (s : String) : Bool :=
  (match s.data with
   | [] => true
   | c :: _ => !isJsWs c) && endsNonWs s

/-- True when the list is nonempty and its last element is not whitespace. -/
def lastNotWs (A : List Char) : Bool :=
  match A.reverse with
  | [] => false
  | c :: _ => !isJsWs c

/-- Node path.join for a directory and a file name, POSIX flavoured and
without normalisation (the claims under study never depend on
normalisation). -/
def pathJoin (dir file : String) : String :=
  dir ++ "/" ++ file

/-- Node path.basename, POSIX flavoured: strip trailing slashes, then keep
everything after the last remaining slash. -/
def pathBasename (p : String) : String :=
  String.mk (((p.data.reverse.dropWhile (fun c => c == '/')).takeWhile
    (fun c => !(c == '/'))).reverse)

/-- JavaScript String.prototype.repeat: strRepeat s n is s concatenated n
times. -/
def strRepeat (s : String) : Nat → String
  | 0 => ""
  | n + 1 => s ++ strRepeat s n

/-- The method TestAgent.buildTestPrompt of src/TestAgent.ts, with the
timestamp new Date().toISOString() lifted to the explicit first argument.
The template literal is reproduced verbatim (braces written as escapes) and
then trimmed, exactly as the source does. -/
def buildTestPrompt (currentDateTime : String) (testContent : String) : String :=
  jsTrim ("\nCurrent Date/Time: " ++ currentDateTime ++ "\n\nInstructions:\n- Follow the test steps below carefully\n- Return your response in JSON format with the following structure:\n  \x7b\n    \"success\": boolean,\n    \"steps_completed\": string[],\n    \"observations\": string,\n    \"final_status\": string\n  \x7d\n\nTest Steps:\n" ++ testContent ++ "\n")

/-- The fixed text standing before the timestamp in every built prompt. -/
def promptHead : String := "Current Date/Time: "

/-- The fixed instruction block standing between the timestamp and the test
content in every built prompt (before the final trim). -/
def promptMid : String := "\n\nInstructions:\n- Follow the test steps below carefully\n- Return your response in JSON format with the following structure:\n  \x7b\n    \"success\": boolean,\n    \"steps_completed\": string[],\n    \"observations\": string,\n    \"final_status\": string\n  \x7d\n\nTest Steps:\n"

/-- The instruction block without its final newline; it ends with the
non-whitespace character of the label Test Steps:. -/
def promptMidA : String := "\n\nInstructions:\n- Follow the test steps below carefully\n- Return your response in JSON format with the following structure:\n  \x7b\n    \"success\": boolean,\n    \"steps_completed\": string[],\n    \"observations\": string,\n    \"final_status\": string\n  \x7d\n\nTest Steps:"

/-- Everything of a built prompt that follows the timestamp: the instruction
block, the Test Steps label and the embedded content, right-trimmed as the
final trim of buildTestPrompt leaves them. -/
def promptTail (testContent : String) : String :=
  jsTrimRight (promptMid ++ testContent ++ "\n")

/-- Lexicographic comparison of character lists by code point, modelling
the default comparator of Array.prototype.sort (which compares strings as
sequences of code units; for the code points appearing in file names the
two orders agree). -/
def leCharsB : List Char → List Char → Bool
  | [], _ => true
  | _ :: _, [] => false
  | a :: as, b :: bs =>
      if a.toNat < b.toNat then true
      else if b.toNat < a.toNat then false
      else leCharsB as bs

/-- The string order used by the default sort comparator. -/
def jsLe (a b : String) : Bool := leCharsB a.data b.data

/-- The JavaScript String.prototype.endsWith: p is a suffix of s. -/
def strEndsWith (s p : String) : Bool :=
  isPrefList p.data.reverse s.data.reverse

/-- The method TestAgent.getTestFiles of src/TestAgent.ts: list the tests
directory, keep names ending in .test, sort them (default lexicographic
comparator, any sorted permutation being unique for strings), and join
each onto the tests directory. -/
def getTestFiles (env : TestEnv α) : Except JsError (List String) :=
  match env.readdir with
  | .error e => .error e
  | .ok files =>
      .ok (((files.filter (fun file => strEndsWith file ".test")).insertionSort
        (fun a b => jsLe a b = true)).map
        (fun file => pathJoin env.testsDir file))

/-- The method TestAgent.readTestContent of src/TestAgent.ts. -/
def readTestContent (env : TestEnv α) (filePath : String) : Except JsError String :=
  env.readFile filePath

/-- The value returned by the catch clause of TestAgent.runSingleTest. -/
def catchResult (α : Type) (testFile : String) (testNumber : Nat) (e : JsError) :
    TestResult α :=
  { testFile := pathBasename testFile
    testNumber := testNumber
    prompt := ""
    result := none
    success := false
    error := some e.toMessage }

/-- The method TestAgent.runSingleTest of src/TestAgent.ts.  The try block
reads the file, builds the prompt and invokes the gateway; a throw from
either await is caught and converted by the catch clause.  The console
logging of the source is elided.  now is the timestamp the clock would
deliver inside buildTestPrompt for this call. -/
def runSingleTest (env : TestEnv α) (now : String) (testFile : String)
    (testNumber : Nat) : TestResult α :=
  match readTestContent env testFile with
  | .error e => catchResult α testFile testNumber e
  | .ok testContent =>
      match env.agentRun (buildTestPrompt now testContent) with
      | .error e => catchResult α testFile testNumber e
      | .ok result =>
          { testFile := pathBasename testFile
            testNumber := testNumber
            prompt := testContent
            result := some result
            success := true
            error := none }

/-- The first failure, if any, that the try block of runSingleTest runs into
for a given file: a read failure, else a gateway failure, else none. -/
def stepFailureOf (env : TestEnv α) (now : String) (testFile : String) :
    Option JsError :=
  match readTestContent env testFile with
  | .error e => some e
  | .ok testContent =>
      match env.agentRun (buildTestPrompt now testContent) with
      | .error e => some e
      | .ok _ => none

/-- The for loop of TestAgent.runAllTests: run the files one after the other,
numbering them i + 1 from the current index i. -/
def runTestsLoop (env : TestEnv α) (nowAt : Nat → String) :
    Nat → List String → List (TestResult α)
  | _, [] => []
  | i, f :: fs =>
      runSingleTest env (nowAt i) f (i + 1) :: runTestsLoop env nowAt (i + 1) fs

/-- The method TestAgent.runAllTests of src/TestAgent.ts: list the test
files (a failure here propagates, there is no try around it), then run each
in listed order, accumulating results in order. -/
def runAllTests (env : TestEnv α) (nowAt : Nat → String) :
    Except JsError (List (TestResult α)) :=
  match getTestFiles env with
  | .error e => .error e
  | .ok testFiles => .ok (runTestsLoop env nowAt 0 testFiles)

/-- Truthiness of the optional error field of a TestResult, as the condition
if (r.error) of printSummary evaluates it: an absent field and the empty
string are falsy, every other string is truthy. -/
def errTruthy : Option String → Bool
  | none => false
  | some m => !(m == "")

/-- The two lines (status line, then conditional error line) that the
forEach body of TestAgent.printSummary logs for one result. -/
def resultLines (r : TestResult α) : List String :=
  ((if r.success then "✅ PASSED" else "❌ FAILED") ++ " - Test #"
      ++ toString r.testNumber ++ ": " ++ r.testFile) ::
    (if errTruthy r.error then ["  Error: " ++ r.error.getD ""] else [])

/-- The concatenation of the per-result lines over a result list, in order
(the forEach loop of printSummary). -/
def summaryBody : List (TestResult α) → List String
  | [] => []
  | r :: rs => resultLines r ++ summaryBody rs

/-- The method TestAgent.printSummary of src/TestAgent.ts, modelled as the
ordered list of strings it passes to console.log: a three-line header, the
per-result lines, and the final tally (passed counted by filtering on
success, failed computed as length minus passed, as in the source). -/
def printSummary (results : List (TestResult α)) : List String :=
  ("\n" ++ strRepeat "=" 60) :: "TEST SUMMARY" :: strRepeat "=" 60 ::
    (summaryBody results ++
      ["\nTotal: " ++ toString results.length ++ " | Passed: "
        ++ toString (results.filter (fun r => r.success)).length
        ++ " | Failed: "
        ++ toString (results.length
          - (results.filter (fun r => r.success)).length)])

/-- Modelled from the claim wording of C9 as stated: one status line per
result, followed by the error message whenever that result is failed, and a
final tally of total, passed and failed counts (failed counted directly as
the results without success). -/
def reportClaimed (results : List (TestResult α)) : List String :=
  ("\n" ++ strRepeat "=" 60) :: "TEST SUMMARY" :: strRepeat "=" 60 ::
    ((results.flatMap (fun r =>
        ((if r.success then "✅ PASSED" else "❌ FAILED") ++ " - Test #"
            ++ toString r.testNumber ++ ": " ++ r.testFile) ::
          (if r.success then [] else ["  Error: " ++ r.error.getD ""])))
      ++ ["\nTotal: " ++ toString results.length ++ " | Passed: "
          ++ toString (results.filter (fun r => r.success)).length
          ++ " | Failed: "
          ++ toString (results.filter (fun r => !r.success)).length])

/-- Modelled from the amended claim wording of C9: one status line per
result in input order, followed by the error message whenever that result
carries a non-empty error message, and a final tally of total, passed and
failed counts (failed counted directly as the results without success). -/
def reportAmended (results : List (TestResult α)) : List String :=
  ("\n" ++ strRepeat "=" 60) :: "TEST SUMMARY" :: strRepeat "=" 60 ::
    ((results.flatMap (fun r =>
        ((if r.success then "✅ PASSED" else "❌ FAILED") ++ " - Test #"
            ++ toString r.testNumber ++ ": " ++ r.testFile) ::
          (if errTruthy r.error then ["  Error: " ++ r.error.getD ""]
           else [])))
      ++ ["\nTotal: " ++ toString results.length ++ " | Passed: "
          ++ toString (results.filter (fun r => r.success)).length
          ++ " | Failed: "
          ++ toString (results.filter (fun r => !r.success)).length])

/-! Concrete environments used by the witnesses and counterexamples. -/

/-- A fixed timestamp sequence for concrete runs. -/
def nowZ : Nat → String := fun _ => "2025-01-01T00:00:00.000Z"

/-- A directory with two test files and one other file; reads and gateway
always succeed. -/
def envAllOk : TestEnv String :=
  ⟨"tests", .ok ["b.test", "notes.txt", "a.test"],
   fun _ => .ok "open example.com", fun _ => .ok "done"⟩

/-- The same directory content listed by the filesystem in another order. -/
def envPermB : TestEnv String :=
  ⟨"tests", .ok ["a.test", "b.test", "notes.txt"],
   fun _ => .ok "open example.com", fun _ => .ok "done"⟩

/-- A missing tests directory: the listing itself fails. -/
def envDirFail : TestEnv String :=
  ⟨"tests", .error (.error "ENOENT: no such directory"),
   fun _ => .ok "", fun _ => .ok ""⟩

/-- A listed file that cannot be read; the gateway always succeeds. -/
def envReadFail : TestEnv String :=
  ⟨"tests", .ok ["a.test"],
   fun _ => .error (.error "ENOENT"), fun _ => .ok "done"⟩

/-- A readable file whose gateway invocation raises with a message. -/
def envGwFail : TestEnv String :=
  ⟨"tests", .ok ["a.test"],
   fun _ => .ok "steps", fun _ => .error (.error "gateway timeout")⟩

/-- A readable file whose gateway invocation raises an Error carrying the
empty message. -/
def envGwEmptyMsg : TestEnv String :=
  ⟨"tests", .ok ["a.test"],
   fun _ => .ok "steps", fun _ => .error (.error "")⟩

/-- Two readable files; the gateway raises exactly on the prompt built from
the second file (whose content mentions bad). -/
def envMixed : TestEnv String :=
  ⟨"tests", .ok ["b.test", "a.test"],
   fun path => if path = "tests/a.test" then .ok "good steps"
     else .ok "bad steps",
   fun q => if containsStr q "bad" = true then .error (.error "boom")
     else .ok "done"⟩

/-- The file contents served by envMixed. -/
def contMixed : String → String :=
  fun path => if path = "tests/a.test" then "good steps" else "bad steps"

/-! Infrastructure lemmas on character lists, trimming and substring
occurrence. -/

lemma data_append (s t : String) : (s ++ t).data = s.data ++ t.data := rfl

lemma dropWhile_ne_nil_of_mem {p : Char → Bool} {l : List Char} {a : Char}
    (ha : a ∈ l) (hpa : p a = false) : l.dropWhile p ≠ [] := by
  intro h
  rw [List.dropWhile_eq_nil_iff] at h
  have := h a ha
  rw [hpa] at this
  exact Bool.false_ne_true this

lemma dropWhile_append_of_ne_nil {p : Char → Bool} {l₁ : List Char}
    (h : l₁.dropWhile p ≠ []) (l₂ : List Char) :
    (l₁ ++ l₂).dropWhile p = l₁.dropWhile p ++ l₂ := by
  rw [List.dropWhile_append]
  simp only [List.isEmpty_iff]
  rw [if_neg h]

lemma dropWhile_head_false (p : Char → Bool) :
    ∀ (l : List Char) (c : Char) (r : List Char),
      l.dropWhile p = c :: r → p c = false := by
  intro l
  induction l with
  | nil => intro c r h; simp [List.dropWhile] at h
  | cons a l ih =>
      intro c r h
      rw [List.dropWhile_cons] at h
      by_cases hp : p a = true
      · rw [if_pos hp] at h; exact ih _ _ h
      · rw [if_neg hp] at h
        cases h
        simpa using hp

lemma rtrimL_append_right (A B : List Char)
    (hB : ∃ b ∈ B, isJsWs b = false) : rtrimL (A ++ B) = A ++ rtrimL B := by
  obtain ⟨b, hbB, hbw⟩ := hB
  unfold rtrimL
  rw [List.reverse_append]
  rw [dropWhile_append_of_ne_nil
    (dropWhile_ne_nil_of_mem (List.mem_reverse.mpr hbB) hbw)]
  rw [List.reverse_append, List.reverse_reverse]

lemma rtrimL_append_left {A : List Char} (hA : lastNotWs A = true)
    (B : List Char) : rtrimL (A ++ B) = A ++ rtrimL B := by
  rcases hrev : A.reverse with _ | ⟨c, r⟩
  · exfalso
    have hfalse : lastNotWs A = false := by unfold lastNotWs; rw [hrev]
    rw [hfalse] at hA
    exact Bool.false_ne_true hA
  · have h1 : lastNotWs A = !isJsWs c := by unfold lastNotWs; rw [hrev]
    rw [h1] at hA
    have hcw : isJsWs c = false := by simpa using hA
    unfold rtrimL
    rw [List.reverse_append]
    by_cases hBr : B.reverse.dropWhile isJsWs = []
    · rw [List.dropWhile_append]
      simp only [List.isEmpty_iff]
      rw [if_pos hBr, hrev, List.dropWhile_cons, if_neg (by simp [hcw])]
      rw [← hrev, List.reverse_reverse, hBr]
      simp
    · rw [dropWhile_append_of_ne_nil hBr]
      rw [List.reverse_append, List.reverse_reverse]

lemma isPrefList_extend : ∀ (n l t : List Char),
    isPrefList n l = true → isPrefList n (l ++ t) = true := by
  intro n
  induction n with
  | nil => intro l t _; rfl
  | cons b m ih =>
      intro l t h
      cases l with
      | nil => simp [isPrefList] at h
      | cons c l =>
          simp only [isPrefList, Bool.and_eq_true] at h
          simp only [List.cons_append, isPrefList, Bool.and_eq_true]
          exact ⟨h.1, ih _ _ h.2⟩

lemma isPrefList_refl : ∀ (l : List Char), isPrefList l l = true := by
  intro l
  induction l with
  | nil => rfl
  | cons a l ih => simp [isPrefList, ih]

lemma occursIn_nil_needle : ∀ (l : List Char), occursIn [] l = true := by
  intro l
  cases l with
  | nil => rfl
  | cons a l => simp [occursIn, isPrefList]

lemma occursIn_suffix : ∀ (x n : List Char), occursIn n (x ++ n) = true := by
  intro x
  induction x with
  | nil =>
      intro n
      cases n with
      | nil => rfl
      | cons c m =>
          simp only [List.nil_append, occursIn, Bool.or_eq_true]
          exact Or.inl (isPrefList_refl (c :: m))
  | cons a x ih =>
      intro n
      simp only [List.cons_append, occursIn, Bool.or_eq_true]
      exact Or.inr (ih n)

lemma occursIn_append_left : ∀ (h t n : List Char),
    occursIn n h = true → occursIn n (h ++ t) = true := by
  intro h
  induction h with
  | nil =>
      intro t n hn
      simp only [occursIn, List.isEmpty_iff] at hn
      subst hn
      exact occursIn_nil_needle t
  | cons a h ih =>
      intro t n hn
      simp only [occursIn, Bool.or_eq_true] at hn
      simp only [List.cons_append, occursIn, Bool.or_eq_true]
      cases hn with
      | inl hp => exact Or.inl (isPrefList_extend _ _ _ hp)
      | inr ho => exact Or.inr (ih t n ho)

lemma endsNonWs_jsTrim (s : String) : endsNonWs (jsTrim s) = true := by
  unfold endsNonWs jsTrim rtrimL
  simp only [List.reverse_reverse]
  rcases h : (s.data.dropWhile isJsWs).reverse.dropWhile isJsWs with _ | ⟨c, r⟩
  · rfl
  · show (!isJsWs c) = true
    rw [dropWhile_head_false _ _ _ _ h]
    rfl

/-! Order properties of the sort comparator. -/

lemma charEqOfToNat {a b : Char} (h : a.toNat = b.toNat) : a = b :=
  Char.ext (UInt32.ext h)

lemma leCharsB_cons_iff (a b : Char) (as bs : List Char) :
    leCharsB (a :: as) (b :: bs) = true
      ↔ (a.toNat < b.toNat
          ∨ (a.toNat = b.toNat ∧ leCharsB as bs = true)) := by
  by_cases h1 : a.toNat < b.toNat
  · simp [leCharsB, h1]
  · by_cases h2 : b.toNat < a.toNat
    · simp [leCharsB, h1, h2]
      omega
    · have he : a.toNat = b.toNat := by omega
      simp [leCharsB, h1, h2, he]

lemma leCharsB_total : ∀ x y : List Char,
    leCharsB x y = true ∨ leCharsB y x = true := by
  intro x
  induction x with
  | nil => intro y; exact Or.inl rfl
  | cons a as ih =>
      intro y
      cases y with
      | nil => exact Or.inr rfl
      | cons b bs =>
          rcases Nat.lt_trichotomy a.toNat b.toNat with h | h | h
          · exact Or.inl ((leCharsB_cons_iff a b as bs).mpr (Or.inl h))
          · rcases ih bs with h2 | h2
            · exact Or.inl ((leCharsB_cons_iff a b as bs).mpr
                (Or.inr ⟨h, h2⟩))
            · exact Or.inr ((leCharsB_cons_iff b a bs as).mpr
                (Or.inr ⟨h.symm, h2⟩))
          · exact Or.inr ((leCharsB_cons_iff b a bs as).mpr (Or.inl h))

lemma leCharsB_trans : ∀ x y z : List Char,
    leCharsB x y = true → leCharsB y z = true → leCharsB x z = true := by
  intro x
  induction x with
  | nil => intro y z h1 h2; rfl
  | cons a as ih =>
      intro y z h1 h2
      cases y with
      | nil => simp [leCharsB] at h1
      | cons b bs =>
          cases z with
          | nil => simp [leCharsB] at h2
          | cons c cs =>
              rw [leCharsB_cons_iff] at h1 h2 ⊢
              rcases h1 with h1 | ⟨he1, hr1⟩ <;>
                rcases h2 with h2 | ⟨he2, hr2⟩
              · exact Or.inl (by omega)
              · exact Or.inl (by omega)
              · exact Or.inl (by omega)
              · exact Or.inr ⟨by omega, ih bs cs hr1 hr2⟩

lemma leCharsB_antisymm : ∀ x y : List Char,
    leCharsB x y = true → leCharsB y x = true → x = y := by
  intro x
  induction x with
  | nil =>
      intro y h1 h2
      cases y with
      | nil => rfl
      | cons b bs => simp [leCharsB] at h2
  | cons a as ih =>
      intro y h1 h2
      cases y with
      | nil => simp [leCharsB] at h1
      | cons b bs =>
          rw [leCharsB_cons_iff] at h1 h2
          rcases h1 with h1 | ⟨he1, hr1⟩
          · rcases h2 with h2 | ⟨he2, hr2⟩
            · exact absurd h1 (by omega)
            · exact absurd h1 (by omega)
          · rcases h2 with h2 | ⟨he2, hr2⟩
            · exact absurd h2 (by omega)
            · rw [charEqOfToNat he1, ih bs hr1 hr2]

lemma jsLeIsTotal : IsTotal String (fun a b => jsLe a b = true) :=
  ⟨fun a b => leCharsB_total a.data b.data⟩

lemma jsLeIsTrans : IsTrans String (fun a b => jsLe a b = true) :=
  ⟨fun a b c => leCharsB_trans a.data b.data c.data⟩

lemma jsLeIsAntisymm : IsAntisymm String (fun a b => jsLe a b = true) :=
  ⟨fun a b h1 h2 => String.ext (leCharsB_antisymm a.data b.data h1 h2)⟩

/-! Decomposition of the built prompt around its timestamp. -/

set_option maxRecDepth 100000 in
lemma rtrim_prompt_core (td cd : List Char) :
    rtrimL (List.dropWhile isJsWs
        (((((("\nCurrent Date/Time: ").data ++ td) ++ promptMid.data)
          ++ cd) ++ ['\n'])))
      = (promptHead.data ++ td) ++ rtrimL ((promptMid.data ++ cd) ++ ['\n']) := by
  have h0 : ("\nCurrent Date/Time: ").data = '\n' :: promptHead.data := rfl
  have hA : ((((("\nCurrent Date/Time: ").data ++ td) ++ promptMid.data)
        ++ cd) ++ ['\n'])
      = '\n' :: ((promptHead.data ++ td)
          ++ (promptMid.data ++ (cd ++ ['\n']))) := by
    rw [h0]
    rw [List.cons_append '\n' promptHead.data td]
    rw [List.cons_append '\n' (promptHead.data ++ td) promptMid.data]
    rw [List.cons_append '\n' ((promptHead.data ++ td) ++ promptMid.data) cd]
    rw [List.cons_append '\n'
      (((promptHead.data ++ td) ++ promptMid.data) ++ cd) ['\n']]
    rw [List.append_assoc (promptHead.data ++ td) promptMid.data cd]
    rw [List.append_assoc (promptHead.data ++ td)
      (promptMid.data ++ cd) ['\n']]
    rw [List.append_assoc promptMid.data cd ['\n']]
  rw [hA]
  rw [List.dropWhile_cons, if_pos (by decide : isJsWs '\n' = true)]
  have hd : List.dropWhile isJsWs
        ((promptHead.data ++ td) ++ (promptMid.data ++ (cd ++ ['\n'])))
      = (promptHead.data ++ td) ++ (promptMid.data ++ (cd ++ ['\n'])) := by
    show List.dropWhile isJsWs
        ('C' :: ((("urrent Date/Time: ").data ++ td)
          ++ (promptMid.data ++ (cd ++ ['\n']))))
      = (promptHead.data ++ td) ++ (promptMid.data ++ (cd ++ ['\n']))
    rw [List.dropWhile_cons, if_neg (by decide : ¬isJsWs 'C' = true)]
    rfl
  rw [hd]
  have hmem : 'I' ∈ promptMid.data ++ (cd ++ ['\n']) :=
    List.mem_append.mpr (Or.inl (by decide))
  have hIw : isJsWs 'I' = false := by decide
  rw [rtrimL_append_right (promptHead.data ++ td)
    (promptMid.data ++ (cd ++ ['\n'])) (Exists.intro 'I' (And.intro hmem hIw))]
  rw [List.append_assoc promptMid.data cd ['\n']]

set_option maxRecDepth 100000 in
lemma buildTestPrompt_decomp (t C : String) :
    buildTestPrompt t C = promptHead ++ t ++ promptTail C := by
  apply String.ext
  have hL : (buildTestPrompt t C).data
      = rtrimL (List.dropWhile isJsWs
          (((((("\nCurrent Date/Time: ").data ++ t.data) ++ promptMid.data)
            ++ C.data) ++ ['\n']))) := rfl
  have hR : (promptHead ++ t ++ promptTail C).data
      = (promptHead.data ++ t.data)
          ++ rtrimL ((promptMid.data ++ C.data) ++ ['\n']) := rfl
  rw [hL, hR]
  exact rtrim_prompt_core t.data C.data

set_option maxRecDepth 100000 in
lemma promptTail_decomp (C : String) :
    promptTail C = promptMidA ++ jsTrimRight ("\n" ++ C ++ "\n") := by
  apply String.ext
  have hL : (promptTail C).data
      = rtrimL ((promptMid.data ++ C.data) ++ ['\n']) := rfl
  have hR : (promptMidA ++ jsTrimRight ("\n" ++ C ++ "\n")).data
      = promptMidA.data ++ rtrimL (('\n' :: C.data) ++ ['\n']) := rfl
  rw [hL, hR]
  have hM : promptMid.data = promptMidA.data ++ ['\n'] := rfl
  rw [hM]
  rw [List.append_assoc promptMidA.data ['\n'] C.data]
  rw [List.append_assoc promptMidA.data (['\n'] ++ C.data) ['\n']]
  have hpa : lastNotWs promptMidA.data = true := by decide
  exact rtrimL_append_left hpa _

lemma jsTrimRight_wrap (C : String) (hne : C.data ≠ [])
    (h : endsNonWs C = true) : jsTrimRight ("\n" ++ C ++ "\n") = "\n" ++ C := by
  apply String.ext
  show rtrimL (('\n' :: C.data) ++ ['\n']) = '\n' :: C.data
  rcases hrev : C.data.reverse with _ | ⟨c, r⟩
  · exact absurd (List.reverse_eq_nil_iff.mp hrev) hne
  · have hcv : endsNonWs C = !isJsWs c := by unfold endsNonWs; rw [hrev]
    rw [hcv] at h
    have hcw : isJsWs c = false := by simpa using h
    have hCd : C.data = r.reverse ++ [c] := by
      have h2 := congrArg List.reverse hrev
      simpa using h2
    unfold rtrimL
    have h1 : (('\n' :: C.data) ++ ['\n']).reverse = '\n' :: c :: (r ++ ['\n']) := by
      simp [hrev]
    rw [h1]
    rw [List.dropWhile_cons, if_pos (by decide : isJsWs '\n' = true)]
    rw [List.dropWhile_cons, if_neg (by simp [hcw] : ¬isJsWs c = true)]
    rw [show (c :: (r ++ ['\n'])).reverse = '\n' :: (r.reverse ++ [c]) by simp]
    rw [← hCd]

set_option maxRecDepth 100000 in
lemma noEdgeWs_buildTestPrompt (t C : String) :
    noEdgeWs (buildTestPrompt t C) = true := by
  have h2 : endsNonWs (buildTestPrompt t C) = true := endsNonWs_jsTrim _
  have hdata : (buildTestPrompt t C).data
      = 'C' :: (("urrent Date/Time: ").data ++ t.data
          ++ (promptTail C).data) := by
    rw [buildTestPrompt_decomp t C]
    rfl
  unfold noEdgeWs
  rw [h2, Bool.and_true, hdata]
  rfl

/-! Characterisations of runSingleTest and the run loop. -/

lemma runSingleTest_ok_eq (env : TestEnv α) (now f : String) (n : Nat)
    (c : String) (v : α) (hr : env.readFile f = .ok c)
    (hg : env.agentRun (buildTestPrompt now c) = .ok v) :
    runSingleTest env now f n
      = ⟨pathBasename f, n, c, some v, true, none⟩ := by
  simp [runSingleTest, readTestContent, hr, hg]

lemma runSingleTest_fail_eq (env : TestEnv α) (now f : String) (n : Nat)
    (e : JsError) (hf : stepFailureOf env now f = some e) :
    runSingleTest env now f n = catchResult α f n e := by
  unfold stepFailureOf readTestContent at hf
  cases hrf : env.readFile f with
  | error e1 =>
      rw [hrf] at hf
      have hf1 : some e1 = some e := hf
      injection hf1 with h1
      subst h1
      simp [runSingleTest, readTestContent, hrf]
  | ok c =>
      rw [hrf] at hf
      have hf1 : (match env.agentRun (buildTestPrompt now c) with
          | .error err => some err
          | .ok _ => none) = some e := hf
      cases hg : env.agentRun (buildTestPrompt now c) with
      | error e2 =>
          rw [hg] at hf1
          have hf2 : some e2 = some e := hf1
          injection hf2 with h1
          subst h1
          simp [runSingleTest, readTestContent, hrf, hg]
      | ok v =>
          rw [hg] at hf1
          exact absurd (hf1 : (none : Option JsError) = some e) (by simp)

lemma runTestsLoop_length (env : TestEnv α) (nowAt : Nat → String) :
    ∀ (fs : List String) (i : Nat),
      (runTestsLoop env nowAt i fs).length = fs.length := by
  intro fs
  induction fs with
  | nil => intro i; rfl
  | cons f fs ih => intro i; simp [runTestsLoop, ih]

lemma runTestsLoop_getElem (env : TestEnv α) (nowAt : Nat → String) :
    ∀ (fs : List String) (i j : Nat),
      (runTestsLoop env nowAt i fs)[j]?
        = (fs[j]?).map
            (fun f => runSingleTest env (nowAt (i + j)) f (i + j + 1)) := by
  intro fs
  induction fs with
  | nil => intro i j; simp [runTestsLoop]
  | cons f fs ih =>
      intro i j
      cases j with
      | zero => simp [runTestsLoop]
      | succ j =>
          simp only [runTestsLoop, List.getElem?_cons_succ]
          rw [ih (i + 1) j]
          have harith : i + 1 + j = i + (j + 1) := by omega
          rw [harith]

lemma runAllTests_ok_eq (env : TestEnv α) (nowAt : Nat → String)
    (paths : List String) (hlist : getTestFiles env = .ok paths) :
    runAllTests env nowAt = .ok (runTestsLoop env nowAt 0 paths) := by
  unfold runAllTests
  rw [hlist]

/-- C1: for every test file path and ordinal, runSingleTest is a total
function into TestResult (the embedding makes every throw explicit, so the
method never raises), and whenever a step fails (reading the file or
invoking the gateway) the returned TestResult has success false, an absent
result, and the error message the catch clause derives from the thrown
value; otherwise it has success true and no error. -/
theorem runSingleTest_never_raises_shape (α : Type) (env : TestEnv α)
    (now f : String) (n : Nat) :
    ((runSingleTest env now f n).success = true
        ∧ (runSingleTest env now f n).error = none
        ∧ stepFailureOf env now f = none)
    ∨ (∃ e, stepFailureOf env now f = some e
        ∧ (runSingleTest env now f n).success = false
        ∧ (runSingleTest env now f n).result = none
        ∧ (runSingleTest env now f n).error = some e.toMessage) := by
  cases hrf : env.readFile f with
  | error e1 =>
      refine Or.inr ⟨e1, ?_, ?_, ?_, ?_⟩ <;>
        simp [runSingleTest, stepFailureOf, readTestContent, hrf, catchResult]
  | ok c =>
      cases hg : env.agentRun (buildTestPrompt now c) with
      | error e2 =>
          refine Or.inr ⟨e2, ?_, ?_, ?_, ?_⟩ <;>
            simp [runSingleTest, stepFailureOf, readTestContent, hrf, hg,
              catchResult]
      | ok v =>
          refine Or.inl ⟨?_, ?_, ?_⟩ <;>
            simp [runSingleTest, stepFailureOf, readTestContent, hrf, hg]

/-- C10: whenever runSingleTest catches a failure (its success flag is
false), the returned TestResult has an empty prompt field and an absent
result, even when the failure came from the gateway after the file had been
read and the prompt built; the base name of the file and the ordinal are
still recorded. -/
theorem runSingleTest_failure_record (α : Type) (env : TestEnv α)
    (now f : String) (n : Nat)
    (h : (runSingleTest env now f n).success = false) :
    (runSingleTest env now f n).prompt = ""
    ∧ (runSingleTest env now f n).result = none
    ∧ (runSingleTest env now f n).testFile = pathBasename f
    ∧ (runSingleTest env now f n).testNumber = n := by
  cases hrf : env.readFile f with
  | error e1 =>
      refine ⟨?_, ?_, ?_, ?_⟩ <;>
        simp [runSingleTest, readTestContent, hrf, catchResult]
  | ok c =>
      cases hg : env.agentRun (buildTestPrompt now c) with
      | error e2 =>
          refine ⟨?_, ?_, ?_, ?_⟩ <;>
            simp [runSingleTest, readTestContent, hrf, hg, catchResult]
      | ok v =>
          simp [runSingleTest, readTestContent, hrf, hg] at h

/-- C7: if listing the tests directory fails, runAllTests propagates
exactly that failure to its caller and produces no TestResults (the
returned value is the error, carrying no result list); if listing succeeds,
runAllTests never fails, so per-test failures are only ever encoded as data
inside the returned list. -/
theorem runAllTests_listing_failure_propagates (α : Type) (env : TestEnv α)
    (nowAt : Nat → String) :
    (∀ e, env.readdir = .error e → runAllTests env nowAt = .error e)
    ∧ (∀ files, env.readdir = .ok files →
        ∃ rs, runAllTests env nowAt = .ok rs) := by
  constructor
  · intro e he
    simp [runAllTests, getTestFiles, he]
  · intro files hf
    have hl : getTestFiles env
        = .ok (((files.filter (fun file => strEndsWith file ".test")).insertionSort
            (fun a b => jsLe a b = true)).map (fun file => pathJoin env.testsDir file)) := by
      simp [getTestFiles, hf]
    exact ⟨_, runAllTests_ok_eq env nowAt _ hl⟩

/-- C3 (amended): for every sequence of K listed test files whose contents
are all read successfully and on which the gateway succeeds for every call,
runAllTests returns a sequence of length K whose elements all have success
true and no error field set, with ordinals 1..K assigned in listed file
order and each element naming the base name of its file.  The amendment
adds the read-success requirement: a listed file that fails to read yields
a failed element even though the gateway succeeded on every call it
received. -/
theorem runAllTests_all_success (α : Type) (env : TestEnv α)
    (nowAt : Nat → String) (paths : List String) (cont : String → String)
    (hlist : getTestFiles env = .ok paths)
    (hread : ∀ p ∈ paths, env.readFile p = .ok (cont p))
    (hgw : ∀ q, ∃ v, env.agentRun q = .ok v) :
    ∃ rs, runAllTests env nowAt = .ok rs
      ∧ rs.length = paths.length
      ∧ ∀ i p r, paths[i]? = some p → rs[i]? = some r →
          r.success = true ∧ r.error = none ∧ r.testNumber = i + 1
            ∧ r.testFile = pathBasename p := by
  refine ⟨runTestsLoop env nowAt 0 paths,
    runAllTests_ok_eq env nowAt paths hlist,
    runTestsLoop_length env nowAt paths 0, ?_⟩
  intro i p r hp hr
  rw [runTestsLoop_getElem env nowAt paths 0 i, hp] at hr
  have hr1 : some (runSingleTest env (nowAt (0 + i)) p (0 + i + 1))
      = some r := hr
  injection hr1 with hr2
  rw [Nat.zero_add i] at hr2
  subst hr2
  obtain ⟨v, hv⟩ := hgw (buildTestPrompt (nowAt i) (cont p))
  rw [runSingleTest_ok_eq env (nowAt i) p (i + 1) (cont p) v
    (hread p (List.getElem?_mem hp)) hv]
  exact ⟨rfl, rfl, rfl, rfl⟩

/-- C2 (amended): for every sequence of K listed test files whose contents
are all read successfully, where the gateway raises exactly for the calls
belonging to a subset S of the files and every raised failure carries a
non-empty message, runAllTests is not aborted: it returns a sequence of
length K in which exactly the elements of S have success false and a
non-empty error message (the message of the raised failure), and all other
elements have success true and no error.  The amendment adds the
read-success requirement and the non-empty-message requirement: a gateway
failure whose message is empty yields a failed element whose recorded error
message is the empty string. -/
theorem runAllTests_gateway_failures_isolated (α : Type) (env : TestEnv α)
    (nowAt : Nat → String) (paths : List String) (cont : String → String)
    (hlist : getTestFiles env = .ok paths)
    (hread : ∀ p ∈ paths, env.readFile p = .ok (cont p))
    (hmsg : ∀ q e, env.agentRun q = .error e → e.toMessage ≠ "") :
    ∃ rs, runAllTests env nowAt = .ok rs
      ∧ rs.length = paths.length
      ∧ ∀ i p r, paths[i]? = some p → rs[i]? = some r →
          (∀ e, env.agentRun (buildTestPrompt (nowAt i) (cont p)) = .error e →
            r.success = false ∧ r.error = some e.toMessage
              ∧ e.toMessage ≠ "")
          ∧ (∀ v, env.agentRun (buildTestPrompt (nowAt i) (cont p)) = .ok v →
            r.success = true ∧ r.error = none) := by
  refine ⟨runTestsLoop env nowAt 0 paths,
    runAllTests_ok_eq env nowAt paths hlist,
    runTestsLoop_length env nowAt paths 0, ?_⟩
  intro i p r hp hr
  rw [runTestsLoop_getElem env nowAt paths 0 i, hp] at hr
  have hr1 : some (runSingleTest env (nowAt (0 + i)) p (0 + i + 1))
      = some r := hr
  injection hr1 with hr2
  rw [Nat.zero_add i] at hr2
  subst hr2
  have hmem : p ∈ paths := List.getElem?_mem hp
  constructor
  · intro e hge
    have hsf : stepFailureOf env (nowAt i) p = some e := by
      simp [stepFailureOf, readTestContent, hread p hmem, hge]
    rw [runSingleTest_fail_eq env (nowAt i) p (i + 1) e hsf]
    exact ⟨rfl, rfl, hmsg _ e hge⟩
  · intro v hgv
    rw [runSingleTest_ok_eq env (nowAt i) p (i + 1) (cont p) v
      (hread p hmem) hgv]
    exact ⟨rfl, rfl⟩

lemma contains_content (t C : String) (h : endsNonWs C = true) :
    containsStr (buildTestPrompt t C) C = true := by
  by_cases hC : C.data = []
  · unfold containsStr
    rw [hC]
    exact occursIn_nil_needle _
  · have hbp : buildTestPrompt t C
        = promptHead ++ t ++ (promptMidA ++ ("\n" ++ C)) := by
      rw [buildTestPrompt_decomp, promptTail_decomp, jsTrimRight_wrap C hC h]
    unfold containsStr
    rw [hbp]
    have hdata : (promptHead ++ t ++ (promptMidA ++ ("\n" ++ C))).data
        = ((promptHead.data ++ t.data) ++ (promptMidA.data ++ ['\n']))
            ++ C.data := by
      show (promptHead.data ++ t.data) ++ (promptMidA.data ++ (['\n'] ++ C.data))
          = ((promptHead.data ++ t.data) ++ (promptMidA.data ++ ['\n']))
              ++ C.data
      rw [← List.append_assoc promptMidA.data ['\n'] C.data]
      rw [← List.append_assoc (promptHead.data ++ t.data)
        (promptMidA.data ++ ['\n']) C.data]
    rw [hdata]
    exact occursIn_suffix _ _

lemma promptTail_contains (C n : String)
    (h : containsStr promptMidA n = true) :
    containsStr (promptTail C) n = true := by
  unfold containsStr at h ⊢
  rw [promptTail_decomp C]
  show occursIn n.data
      (promptMidA.data ++ (jsTrimRight ("\n" ++ C ++ "\n")).data) = true
  exact occursIn_append_left _ _ _ h

/-- C4 (amended): for every test content string C whose final character is
not whitespace (including the empty string), buildPrompt output contains C
verbatim as a substring; and for every C the output has no leading or
trailing whitespace.  The amendment restricts the verbatim-containment part
to contents without trailing whitespace: the final trim of the prompt
erases trailing whitespace of the embedded content, which sits at the very
end of the prompt, so a content with trailing whitespace need not occur
verbatim in the output. -/
theorem buildTestPrompt_contains_content (t C : String) :
    (endsNonWs C = true → containsStr (buildTestPrompt t C) C = true)
    ∧ noEdgeWs (buildTestPrompt t C) = true :=
  ⟨fun h => contains_content t C h, noEdgeWs_buildTestPrompt t C⟩

set_option maxRecDepth 1000000 in
/-- Witness for the C4 theorem at a concrete timestamp and content. -/
theorem buildTestPrompt_contains_content_witness :
    endsNonWs "open example.com" = true
    ∧ containsStr
        (buildTestPrompt "2025-01-01T00:00:00.000Z" "open example.com")
        "open example.com" = true
    ∧ noEdgeWs (buildTestPrompt "2025-01-01T00:00:00.000Z"
        "open example.com") = true :=
  ⟨by decide,
   (buildTestPrompt_contains_content "2025-01-01T00:00:00.000Z"
     "open example.com").1 (by decide),
   (buildTestPrompt_contains_content "2025-01-01T00:00:00.000Z"
     "open example.com").2⟩

set_option maxRecDepth 1000000 in
/-- Counterexample to C4 as stated: the content "a " (with a trailing
space) does not occur verbatim in the built prompt, because the final trim
erases the trailing space at the end of the prompt. -/
theorem buildTestPrompt_contains_content_counterexample :
    containsStr (buildTestPrompt "2025-01-01T00:00:00.000Z" "a ") "a "
      = false := by
  decide

set_option maxRecDepth 1000000 in
/-- C5: two invocations of buildPrompt on the same content at two instants
differ only in the timestamp slot: both outputs are the same fixed head,
then the timestamp of that run, then a tail that is a fixed function of the
content alone; the tail carries the fixed instruction block naming the four
response fields and the Test Steps label. -/
theorem buildTestPrompt_differs_only_in_timestamp (C t1 t2 : String) :
    buildTestPrompt t1 C = promptHead ++ t1 ++ promptTail C
    ∧ buildTestPrompt t2 C = promptHead ++ t2 ++ promptTail C
    ∧ containsStr (promptTail C) "\"success\"" = true
    ∧ containsStr (promptTail C) "\"steps_completed\"" = true
    ∧ containsStr (promptTail C) "\"observations\"" = true
    ∧ containsStr (promptTail C) "\"final_status\"" = true
    ∧ containsStr (promptTail C) "Test Steps:" = true :=
  ⟨buildTestPrompt_decomp t1 C, buildTestPrompt_decomp t2 C,
   promptTail_contains C _ (by decide),
   promptTail_contains C _ (by decide),
   promptTail_contains C _ (by decide),
   promptTail_contains C _ (by decide),
   promptTail_contains C _ (by decide)⟩

/-- C6: for every directory listing, getTestFiles keeps exactly the file
names carrying the .test extension (the sorted list is a permutation of the
filtered listing, hence exactly N paths for N matching and M non-matching
files), sorts them lexicographically, joins each onto the tests directory,
and its output is independent of the order the filesystem returned the
names in. -/
theorem getTestFiles_sorted_spec (α : Type) (env env2 : TestEnv α)
    (files files2 : List String)
    (h : env.readdir = .ok files) (h2 : env2.readdir = .ok files2)
    (hdir : env2.testsDir = env.testsDir) (hperm : files2.Perm files) :
    getTestFiles env
        = .ok (((files.filter (fun f => strEndsWith f ".test")).insertionSort
            (fun a b => jsLe a b = true)).map (pathJoin env.testsDir))
      ∧ ((files.filter (fun f => strEndsWith f ".test")).insertionSort
          (fun a b => jsLe a b = true)).Perm (files.filter (fun f => strEndsWith f ".test"))
      ∧ List.Sorted (fun a b => jsLe a b = true)
          ((files.filter (fun f => strEndsWith f ".test")).insertionSort (fun a b => jsLe a b = true))
      ∧ ((files.filter (fun f => strEndsWith f ".test")).insertionSort
          (fun a b => jsLe a b = true)).length
          = (files.filter (fun f => strEndsWith f ".test")).length
      ∧ getTestFiles env2 = getTestFiles env := by
  haveI := jsLeIsTotal
  haveI := jsLeIsTrans
  haveI := jsLeIsAntisymm
  refine ⟨?_, List.perm_insertionSort _ _, List.sorted_insertionSort _ _,
    (List.perm_insertionSort _ _).length_eq, ?_⟩
  · simp [getTestFiles, h]
  · have hsorteq : ((files2.filter (fun f => strEndsWith f ".test")).insertionSort
          (fun a b => jsLe a b = true))
        = ((files.filter (fun f => strEndsWith f ".test")).insertionSort
          (fun a b => jsLe a b = true)) := by
      refine List.eq_of_perm_of_sorted ?_ (List.sorted_insertionSort _ _)
        (List.sorted_insertionSort _ _)
      exact ((List.perm_insertionSort _ _).trans
        (hperm.filter _)).trans (List.perm_insertionSort _ _).symm
    have e1 : getTestFiles env
        = .ok (((files.filter (fun f => strEndsWith f ".test")).insertionSort
            (fun a b => jsLe a b = true)).map (pathJoin env.testsDir)) := by
      simp [getTestFiles, h]
    have e2 : getTestFiles env2
        = .ok (((files2.filter (fun f => strEndsWith f ".test")).insertionSort
            (fun a b => jsLe a b = true)).map (pathJoin env2.testsDir)) := by
      simp [getTestFiles, h2]
    rw [e1, e2, hdir, hsorteq]

/-- C8 (amended): every TestResult produced by a successful runSingleTest
records the raw test file content in its prompt field (not the full prompt
envelope that was sent to the gateway), alongside the base name of the
source file, the ordinal, the gateway result, success true and no error. -/
theorem runSingleTest_success_record (α : Type) (env : TestEnv α)
    (now f : String) (n : Nat) (c : String) (v : α)
    (hr : env.readFile f = .ok c)
    (hg : env.agentRun (buildTestPrompt now c) = .ok v) :
    runSingleTest env now f n
      = ⟨pathBasename f, n, c, some v, true, none⟩ :=
  runSingleTest_ok_eq env now f n c v hr hg

lemma summaryBody_eq_flatMap (rs : List (TestResult α)) :
    summaryBody rs = rs.flatMap (fun r =>
      ((if r.success then "✅ PASSED" else "❌ FAILED") ++ " - Test #"
          ++ toString r.testNumber ++ ": " ++ r.testFile) ::
        (if errTruthy r.error then ["  Error: " ++ r.error.getD ""]
         else [])) := by
  induction rs with
  | nil => rfl
  | cons r rs ih => simp [summaryBody, resultLines, ih]

lemma length_sub_filter (rs : List (TestResult α)) :
    rs.length - (rs.filter (fun r => r.success)).length
      = (rs.filter (fun r => !r.success)).length := by
  induction rs with
  | nil => rfl
  | cons r rs ih =>
      cases hs : r.success with
      | true =>
          simp only [List.filter_cons, hs, List.length_cons]
          simp [Nat.succ_sub_succ, ih]
      | false =>
          simp only [List.filter_cons, hs, List.length_cons]
          have hle : (rs.filter (fun r => r.success)).length ≤ rs.length :=
            List.length_filter_le _ _
          simp [Nat.succ_sub hle, ih]

/-- C9 (amended): printSummary (modelled as the ordered list of logged
lines) is the deterministic projection of its input that emits the fixed
header, then, for each result in order, one line naming pass or fail
status, ordinal and file name, followed by the error message whenever that
result carries a non-empty error message, and finally one tally line whose
counts are the length of the input, the number of successful results, and
the number of unsuccessful results.  The amendment replaces whenever that
result is failed by whenever it carries a non-empty error message: the
source guards the error line by the truthiness of the error field, so a
failed result whose recorded message is empty gets no error line. -/
theorem printSummary_structure (α : Type) (results : List (TestResult α)) :
    printSummary results = reportAmended results := by
  unfold printSummary reportAmended
  rw [summaryBody_eq_flatMap, length_sub_filter]

set_option maxRecDepth 40000 in
/-- Counterexample to C9 as stated: a failed TestResult whose error message
is the empty string gets no error line from printSummary, while the claimed
shape emits one for every failed result. -/
theorem printSummary_structure_counterexample :
    printSummary [(⟨"f.test", 1, "", none, false, some ""⟩ : TestResult String)]
      ≠ reportClaimed
          [(⟨"f.test", 1, "", none, false, some ""⟩ : TestResult String)] := by
  decide

/-- Witness for the C3 theorem on a concrete two-file directory. -/
theorem runAllTests_all_success_witness :
    ∃ rs, runAllTests envAllOk nowZ = .ok rs
      ∧ rs.length = (["tests/a.test", "tests/b.test"] : List String).length
      ∧ ∀ i p r,
          (["tests/a.test", "tests/b.test"] : List String)[i]? = some p
          → rs[i]? = some r →
          r.success = true ∧ r.error = none ∧ r.testNumber = i + 1
            ∧ r.testFile = pathBasename p :=
  runAllTests_all_success String envAllOk nowZ
    ["tests/a.test", "tests/b.test"] (fun _ => "open example.com")
    (by decide) (by decide) (fun _ => ⟨"done", rfl⟩)

set_option maxRecDepth 1000000 in
/-- Counterexample to C3 as stated: a gateway that succeeds on every call
does not make every element succeed, because a listed file that fails to
read already yields a failed element. -/
theorem runAllTests_all_success_counterexample :
    (∀ q, ∃ v, envReadFail.agentRun q = .ok v)
    ∧ runAllTests envReadFail nowZ
        = .ok [⟨"a.test", 1, "", none, false, some "ENOENT"⟩] :=
  ⟨fun _ => ⟨"done", rfl⟩, by decide⟩

set_option maxRecDepth 1000000 in
/-- Witness for the C2 theorem on a concrete directory where the gateway
raises exactly for the second file. -/
theorem runAllTests_gateway_failures_isolated_witness :
    ∃ rs, runAllTests envMixed nowZ = .ok rs
      ∧ rs.length = (["tests/a.test", "tests/b.test"] : List String).length
      ∧ ∀ i p r,
          (["tests/a.test", "tests/b.test"] : List String)[i]? = some p
          → rs[i]? = some r →
          (∀ e, envMixed.agentRun (buildTestPrompt (nowZ i) (contMixed p))
              = .error e →
            r.success = false ∧ r.error = some e.toMessage
              ∧ e.toMessage ≠ "")
          ∧ (∀ v, envMixed.agentRun (buildTestPrompt (nowZ i) (contMixed p))
              = .ok v →
            r.success = true ∧ r.error = none) :=
  runAllTests_gateway_failures_isolated String envMixed nowZ
    ["tests/a.test", "tests/b.test"] contMixed (by decide) (by decide)
    (fun q e h => by
      have hq : envMixed.agentRun q
          = if containsStr q "bad" = true then Except.error (JsError.error "boom")
            else Except.ok "done" := rfl
      rw [hq] at h
      by_cases hc : containsStr q "bad" = true
      · rw [if_pos hc] at h
        injection h with h1
        rw [← h1]
        decide
      · rw [if_neg hc] at h
        exact absurd h (by simp))

set_option maxRecDepth 1000000 in
/-- Counterexample to C2 as stated: the gateway raises exactly for the one
listed file, yet the failed element carries an empty error message, because
the raised Error had an empty message. -/
theorem runAllTests_gateway_failures_isolated_counterexample :
    runAllTests envGwEmptyMsg nowZ
      = .ok [⟨"a.test", 1, "", none, false, some ""⟩] := by
  decide

/-- Witness for the C6 theorem on a concrete three-file directory and a
permuted listing of the same directory. -/
theorem getTestFiles_sorted_spec_witness :
    getTestFiles envAllOk
        = .ok ((((["b.test", "notes.txt", "a.test"] : List String).filter
            (fun f => strEndsWith f ".test")).insertionSort
            (fun a b => jsLe a b = true)).map (pathJoin envAllOk.testsDir))
      ∧ ((((["b.test", "notes.txt", "a.test"] : List String).filter
          (fun f => strEndsWith f ".test")).insertionSort
          (fun a b => jsLe a b = true)).Perm
          ((["b.test", "notes.txt", "a.test"] : List String).filter
            (fun f => strEndsWith f ".test")))
      ∧ List.Sorted (fun a b => jsLe a b = true)
          (((["b.test", "notes.txt", "a.test"] : List String).filter
            (fun f => strEndsWith f ".test")).insertionSort
            (fun a b => jsLe a b = true))
      ∧ (((["b.test", "notes.txt", "a.test"] : List String).filter
          (fun f => strEndsWith f ".test")).insertionSort
          (fun a b => jsLe a b = true)).length
          = ((["b.test", "notes.txt", "a.test"] : List String).filter
            (fun f => strEndsWith f ".test")).length
      ∧ getTestFiles envPermB = getTestFiles envAllOk :=
  getTestFiles_sorted_spec String envAllOk envPermB
    ["b.test", "notes.txt", "a.test"] ["a.test", "b.test", "notes.txt"]
    rfl rfl rfl (by decide)

/-- Witness for the C7 theorem: a failing listing propagates its error and
a successful listing yields a result list. -/
theorem runAllTests_listing_failure_propagates_witness :
    runAllTests envDirFail nowZ
        = .error (.error "ENOENT: no such directory")
    ∧ ∃ rs, runAllTests envAllOk nowZ = .ok rs :=
  ⟨(runAllTests_listing_failure_propagates String envDirFail nowZ).1 _ rfl,
   (runAllTests_listing_failure_propagates String envAllOk nowZ).2
     ["b.test", "notes.txt", "a.test"] rfl⟩

/-- Witness for the C8 theorem at a concrete successful run. -/
theorem runSingleTest_success_record_witness :
    runSingleTest envAllOk "2025-01-01T00:00:00.000Z" "tests/a.test" 1
      = ⟨pathBasename "tests/a.test", 1, "open example.com", some "done",
          true, none⟩ :=
  runSingleTest_success_record String envAllOk "2025-01-01T00:00:00.000Z"
    "tests/a.test" 1 "open example.com" "done" rfl rfl

set_option maxRecDepth 1000000 in
/-- Counterexample to C8 as stated: on a successful run the prompt field
holds the raw test content, which differs from the full prompt envelope
that was sent to the gateway. -/
theorem runSingleTest_success_record_counterexample :
    (runSingleTest envAllOk "2025-01-01T00:00:00.000Z" "tests/a.test"
        1).success = true
    ∧ (runSingleTest envAllOk "2025-01-01T00:00:00.000Z" "tests/a.test"
        1).prompt
        ≠ buildTestPrompt "2025-01-01T00:00:00.000Z" "open example.com" := by
  constructor
  · rfl
  · decide

/-- Witness for the C10 theorem: the gateway raises after the file was read
and the prompt was built, and the failed result still blanks the prompt and
result fields while recording the base name and ordinal. -/
theorem runSingleTest_failure_record_witness :
    (runSingleTest envGwFail "2025-01-01T00:00:00.000Z" "tests/a.test"
        3).success = false
    ∧ ((runSingleTest envGwFail "2025-01-01T00:00:00.000Z" "tests/a.test"
          3).prompt = ""
        ∧ (runSingleTest envGwFail "2025-01-01T00:00:00.000Z" "tests/a.test"
            3).result = none
        ∧ (runSingleTest envGwFail "2025-01-01T00:00:00.000Z" "tests/a.test"
            3).testFile = pathBasename "tests/a.test"
        ∧ (runSingleTest envGwFail "2025-01-01T00:00:00.000Z" "tests/a.test"
            3).testNumber = 3) :=
  ⟨rfl, runSingleTest_failure_record String envGwFail
    "2025-01-01T00:00:00.000Z" "tests/a.test" 3 rfl⟩
